import Mathlib

set_option maxRecDepth 20000

/-!
Shallow embedding of the selector-discovery probe loop shared by
`src/rewst_workflows/package-tracking/17track_discover_selectors.py`
(function `discover_17track_structure`, lines 86-96) and
`src/rewst_workflows/package-tracking/usps_discover_selectors.py`
(function `discover_usps_structure`, lines 90-100).  The two loops are
textually identical:

    for selector in selectors_to_try:
        try:
            elements = page.query_selector_all(selector)
            if elements:
                print(f"FOUND: (selector) ((len(elements)) elements)")
                for i, el in enumerate(elements[:2]):
                    text = el.inner_text()[:150].replace(newline, space).strip()
                    if text:
                        print(text)
        except Exception:
            pass

The page handle is modelled as a fixed snapshot: a function from selector
strings to query outcomes.  A query outcome is either a list of element
handles, a per-selector evaluation failure (malformed selector / engine
rejection), or a page-unavailable failure (closed or stale handle).  An
element handle carries the result of `el.inner_text()`: `some text`, or
`none` when the read raises (element detached between query and read).
Strings are `List Char` so the slicing, replacing and stripping of the
source line can be stated character by character.  The literals `150`
(preview character budget) and `2` (`elements[:2]`) of the source are the
`preview_limit` and `preview_count` parameters of the probe contract; the
source instantiates them at 150 and 2.
-/

namespace SelectorProbe

/-- Whitespace as stripped by Python `str.strip()` with no argument: the
code points CPython treats as whitespace (bidirectional class WS, B or S,
or general category Zs): TAB through CR (U+0009..U+000D), the separators
U+001C..U+001F, space, NEL (U+0085), no-break space (U+00A0), Ogham space
mark (U+1680), the U+2000..U+200A spaces, line and paragraph separators
(U+2028, U+2029), narrow no-break space (U+202F), medium mathematical
space (U+205F) and ideographic space (U+3000). -/
def isPyWs (c : Char) : Bool :=
  (0x09 ≤ c.toNat && c.toNat ≤ 0x0D) ||
  (0x1C ≤ c.toNat && c.toNat ≤ 0x1F) ||
  c.toNat = 0x20 || c.toNat = 0x85 || c.toNat = 0xA0 || c.toNat = 0x1680 ||
  (0x2000 ≤ c.toNat && c.toNat ≤ 0x200A) ||
  c.toNat = 0x2028 || c.toNat = 0x2029 || c.toNat = 0x202F ||
  c.toNat = 0x205F || c.toNat = 0x3000

/-- Python `s.strip()`: remove leading and trailing whitespace. -/
def pyStrip (s : List Char) : List Char :=
  ((s.dropWhile isPyWs).reverse.dropWhile isPyWs).reverse

/-- Python `s.replace(newline, space)`: every newline character becomes a
space; nothing else changes. -/
def pyReplaceNL (s : List Char) : List Char :=
  s.map (fun c => if c = '\n' then ' ' else c)

/-- An element handle as the probe sees it: `el.inner_text()` either
returns a string (`some`) or raises (`none`, the element was detached
between query and read). -/
structure Element where
  inner_text : Option (List Char)
deriving DecidableEq

/-- Outcome of `page.query_selector_all(selector)` against the snapshot:
the matched element handles, a per-selector evaluation failure, or a
page-unavailable failure (handle closed or stale). -/
inductive QueryResult where
  | pageUnavailable
  | selectorErr
  | ok (elems : List Element)
deriving DecidableEq

/-- A rendered page snapshot: what `query_selector_all` answers for each
selector string.  The probe only reads through it. -/
abbrev Page := String → QueryResult

/-- Exceptions that can be raised inside the per-selector `try` block. -/
inductive PyExn where
  | pageUnavailable
  | selectorErr
  | elementReadErr
deriving DecidableEq

/-- One record of the probe's output: the FOUND line (selector string and
raw match count) together with the preview lines printed under it. -/
structure ProbeResult where
  selector : String
  count : Nat
  previews : List (List Char)
deriving DecidableEq

/-- The inner `for i, el in enumerate(elements[:preview_count])` loop,
applied to the already-sliced element list.  For each element it runs
`text = el.inner_text()[:lim].replace(newline, space).strip()` and prints
`text` when it is non-empty.  Returns the previews printed so far paired
with the exception, if any, that aborted the loop: a raise in
`el.inner_text()` ends the loop (and the whole `try` body) immediately,
keeping the previews already printed. -/
def collectPreviews (lim : Nat) : List Element → List (List Char) × Option PyExn
  | [] => ([], none)
  | el :: rest =>
    match el.inner_text with
    | none => ([], some PyExn.elementReadErr)
    | some t =>
      if pyStrip (pyReplaceNL (t.take lim)) = [] then collectPreviews lim rest
      else (pyStrip (pyReplaceNL (t.take lim)) :: (collectPreviews lim rest).1,
            (collectPreviews lim rest).2)

/-- The body of the `try` block for one selector: query, and when the
element list is non-empty print the FOUND line (selector and raw count)
and then the previews of the first `cnt` elements.  Returns the output
printed before any raise, paired with the raised exception if one
occurred. -/
def runSelectorBody (page : Page) (lim cnt : Nat) (sel : String) :
    List ProbeResult × Option PyExn :=
  match page sel with
  | QueryResult.pageUnavailable => ([], some PyExn.pageUnavailable)
  | QueryResult.selectorErr => ([], some PyExn.selectorErr)
  | QueryResult.ok elems =>
    if elems = [] then ([], none)
    else ([⟨sel, elems.length, (collectPreviews lim (elems.take cnt)).1⟩],
          (collectPreviews lim (elems.take cnt)).2)

/-- One iteration of the outer loop: the `try` body guarded by
`except Exception: pass`, which absorbs every exception and keeps the
output printed before the raise. -/
def probeSelector (page : Page) (lim cnt : Nat) (sel : String) : List ProbeResult :=
  (runSelectorBody page lim cnt sel).1

/-- The whole probe loop `for selector in selectors_to_try`: each selector
is processed in input order and the printed records are concatenated. -/
def probe (page : Page) (selectors : List String) (lim cnt : Nat) : List ProbeResult :=
  (selectors.map (probeSelector page lim cnt)).flatten

/-- Modelled from the spec's stated normalization order for claim C3 only:
(a) replace newline characters with spaces, (b) trim leading and trailing
whitespace, (c) truncate to `preview_limit` characters.  The source applies
the truncation first; this definition exists to be compared against the
source's order. -/
def specOrderNormalize (lim : Nat) (t : List Char) : List Char :=
  (pyStrip (pyReplaceNL t)).take lim

/-- Whether a selector would be reported: its query succeeds and matches at
least one element. -/
def matched (page : Page) (s : String) : Bool :=
  match page s with
  | QueryResult.ok elems => decide (elems ≠ [])
  | _ => false

/-- A page whose handle is unavailable: every query raises. -/
def closedPage : Page := fun _ => QueryResult.pageUnavailable

/-- An element whose text reads successfully. -/
def elOk (t : List Char) : Element := ⟨some t⟩

/-- An element whose text read raises. -/
def elBad : Element := ⟨none⟩

/-- A page on which exactly the selector `h1` matches, with a single
element of text `t`. -/
def singlePage (t : List Char) : Page := fun s =>
  if s = "h1" then QueryResult.ok [elOk t] else QueryResult.ok []

/-- A page on which `h1` matches two elements: the first one's text read
raises, the second one's text is `B`. -/
def pageC2 : Page := fun s =>
  if s = "h1" then QueryResult.ok [elBad, elOk ['B']] else QueryResult.ok []

/-- A 151-character text: one leading space followed by 150 letters. -/
def cx3 : List Char := ' ' :: List.replicate 150 'a'

/-- A 300-character text whose 150th character is a space: 149 letters,
one space, 150 letters. -/
def cx4 : List Char := List.replicate 149 'a' ++ ' ' :: List.replicate 150 'b'

/-- A page on which the selector `div[` fails to evaluate and `h1`
matches one element of text `A`. -/
def pageC5 : Page := fun s =>
  if s = "div[" then QueryResult.selectorErr
  else if s = "h1" then QueryResult.ok [elOk ['A']] else QueryResult.ok []

/-- A page on which `h1` matches one element whose text is a single
space (whitespace-only, so its normalized preview is empty). -/
def pageC10 : Page := fun s =>
  if s = "h1" then QueryResult.ok [elOk [' ']] else QueryResult.ok []

/-! Helper lemmas about the probe loop. -/

theorem probe_nil (page : Page) (lim cnt : Nat) : probe page [] lim cnt = [] := rfl

theorem probe_cons (page : Page) (s : String) (sels : List String) (lim cnt : Nat) :
    probe page (s :: sels) lim cnt =
      probeSelector page lim cnt s ++ probe page sels lim cnt := by
  simp [probe]

theorem probe_append (page : Page) (l1 l2 : List String) (lim cnt : Nat) :
    probe page (l1 ++ l2) lim cnt = probe page l1 lim cnt ++ probe page l2 lim cnt := by
  simp [probe]

theorem probe_singleton (page : Page) (s : String) (lim cnt : Nat) :
    probe page [s] lim cnt = probeSelector page lim cnt s := by
  simp [probe]

theorem pyStrip_length_le (s : List Char) : (pyStrip s).length ≤ s.length := by
  simp only [pyStrip, List.length_reverse]
  refine le_trans (List.dropWhile_sublist isPyWs).length_le ?_
  rw [List.length_reverse]
  exact (List.dropWhile_sublist isPyWs).length_le

theorem mem_of_mem_pyStrip (s : List Char) (a : Char) (h : a ∈ pyStrip s) : a ∈ s := by
  rw [pyStrip, List.mem_reverse] at h
  have h1 := (List.dropWhile_sublist isPyWs).mem h
  rw [List.mem_reverse] at h1
  exact (List.dropWhile_sublist isPyWs).mem h1

theorem newline_not_mem_pyReplaceNL (s : List Char) : '\n' ∉ pyReplaceNL s := by
  intro h
  rw [pyReplaceNL, List.mem_map] at h
  obtain ⟨c, _, hc⟩ := h
  by_cases hcn : c = '\n'
  · simp [hcn] at hc
  · simp [hcn] at hc

theorem collectPreviews_length_le (lim : Nat) (l : List Element) :
    (collectPreviews lim l).1.length ≤ l.length := by
  induction l with
  | nil => simp [collectPreviews]
  | cons el rest ih =>
    cases h : el.inner_text with
    | none => simp [collectPreviews, h]
    | some t =>
      by_cases hg : pyStrip (pyReplaceNL (t.take lim)) = []
      · simp only [collectPreviews, h, hg, if_pos]
        exact le_trans ih (Nat.le_succ _)
      · simp only [collectPreviews, h, hg, if_neg, List.length_cons]
        exact Nat.succ_le_succ ih

theorem collectPreviews_mem (lim : Nat) (l : List Element) (p : List Char)
    (h : p ∈ (collectPreviews lim l).1) : p.length ≤ lim ∧ '\n' ∉ p ∧ p ≠ [] := by
  revert h
  induction l with
  | nil => intro h; simp [collectPreviews] at h
  | cons el rest ih =>
    intro h
    cases he : el.inner_text with
    | none => simp [collectPreviews, he] at h
    | some t =>
      by_cases hg : pyStrip (pyReplaceNL (t.take lim)) = []
      · rw [collectPreviews] at h
        simp only [he, hg, if_pos] at h
        exact ih h
      · rw [collectPreviews] at h
        simp only [he, if_neg hg, List.mem_cons] at h
        rcases h with h | h
        · subst h
          refine ⟨?_, ?_, hg⟩
          · calc (pyStrip (pyReplaceNL (t.take lim))).length
                ≤ (pyReplaceNL (t.take lim)).length := pyStrip_length_le _
              _ = (t.take lim).length := by simp [pyReplaceNL]
              _ ≤ lim := t.length_take_le lim
          · intro hn
            exact newline_not_mem_pyReplaceNL _ (mem_of_mem_pyStrip _ _ hn)
        · exact ih h

theorem collectPreviews_append_fail (lim : Nat) (xs ys : List Element) (f : Element)
    (hf : f.inner_text = none) :
    (collectPreviews lim (xs ++ f :: ys)).1 = (collectPreviews lim xs).1 := by
  induction xs with
  | nil => simp [collectPreviews, hf]
  | cons el rest ih =>
    cases he : el.inner_text with
    | none => simp [collectPreviews, he]
    | some t =>
      by_cases hg : pyStrip (pyReplaceNL (t.take lim)) = []
      · simpa [collectPreviews, he, hg] using ih
      · simpa [collectPreviews, he, hg] using ih

theorem collectPreviews_all_empty (lim : Nat) (l : List Element)
    (h : ∀ e ∈ l, ∃ t, e.inner_text = some t ∧ pyStrip (pyReplaceNL (t.take lim)) = []) :
    (collectPreviews lim l).1 = [] := by
  induction l with
  | nil => simp [collectPreviews]
  | cons el rest ih =>
    obtain ⟨t, ht, hg⟩ := h el (by simp)
    rw [collectPreviews]
    simp only [ht, hg, if_pos]
    exact ih (fun e he => h e (by simp [he]))

theorem mem_probe (page : Page) (sels : List String) (lim cnt : Nat) (r : ProbeResult)
    (h : r ∈ probe page sels lim cnt) :
    ∃ elems, page r.selector = QueryResult.ok elems ∧ elems ≠ [] ∧
      r.count = elems.length ∧
      r.previews = (collectPreviews lim (elems.take cnt)).1 ∧ r.selector ∈ sels := by
  rw [probe, List.mem_flatten] at h
  obtain ⟨m, hm, hr⟩ := h
  rw [List.mem_map] at hm
  obtain ⟨s, hs, rfl⟩ := hm
  rw [probeSelector, runSelectorBody] at hr
  cases hq : page s with
  | pageUnavailable => rw [hq] at hr; simp at hr
  | selectorErr => rw [hq] at hr; simp at hr
  | ok elems =>
    rw [hq] at hr
    by_cases hne : elems = []
    · simp [hne] at hr
    · simp only [if_neg hne, List.mem_singleton] at hr
      subst hr
      exact ⟨elems, hq, hne, rfl, rfl, hs⟩

theorem dropWhile_eq_self_of_head (p : Char → Bool) (m : List Char) (c : Char)
    (h : m.head? = some c) (hc : p c = false) : m.dropWhile p = m := by
  cases m with
  | nil => simp at h
  | cons a l =>
    simp only [List.head?_cons, Option.some.injEq] at h
    subst h
    simp [List.dropWhile_cons, hc]

theorem pyStrip_eq_self (s : List Char) (c1 c2 : Char)
    (h1 : s.head? = some c1) (h2 : s.getLast? = some c2)
    (hw1 : isPyWs c1 = false) (hw2 : isPyWs c2 = false) :
    pyStrip s = s := by
  rw [pyStrip]
  rw [dropWhile_eq_self_of_head isPyWs s c1 h1 hw1]
  rw [dropWhile_eq_self_of_head isPyWs s.reverse c2 (by rw [List.head?_reverse]; exact h2) hw2]
  exact List.reverse_reverse s

theorem probe_singlePage_eq (t : List Char) (lim cnt : Nat) (hc : 1 ≤ cnt)
    (h : pyStrip (pyReplaceNL (t.take lim)) ≠ []) :
    probe (singlePage t) ["h1"] lim cnt =
      [⟨"h1", 1, [pyStrip (pyReplaceNL (t.take lim))]⟩] := by
  rw [probe_singleton, probeSelector, runSelectorBody]
  have hq : singlePage t "h1" = QueryResult.ok [elOk t] := by simp [singlePage]
  rw [hq]
  have htake : ([elOk t] : List Element).take cnt = [elOk t] := by
    cases cnt with
    | zero => omega
    | succ n => simp
  have hne : ([elOk t] : List Element) ≠ [] := by simp
  simp only [if_neg hne, htake]
  simp [collectPreviews, elOk, if_neg h]

/-! Claim theorems. -/

/-- Claim C1, counterexample.  On a page whose handle is unavailable every
query raises PageUnavailable inside the per-selector try block, yet the
probe completes normally with an empty result sequence: the bare
`except Exception: pass` absorbs the PageUnavailable failure, so no error
at all is surfaced to the caller, contradicting the claim that the whole
call fails with PageUnavailable. -/
theorem C1_counterexample :
    (runSelectorBody closedPage 150 2 "h1").2 = some PyExn.pageUnavailable ∧
    probe closedPage ["h1"] 150 2 = [] ∧
    probe closedPage ["h1", "h2", "h3"] 150 2 = [] := by
  refine ⟨rfl, rfl, rfl⟩

/-- Claim C1 (amended): when the page handle is unavailable, each
selector's query raises PageUnavailable inside the per-selector try block,
but the bare except clause absorbs it like every other error: the probe
returns normally with an empty result sequence, and no error of any kind
crosses the probe boundary. -/
theorem C1_page_unavailable_absorbed (page : Page) (sels : List String) (lim cnt : Nat)
    (h : ∀ s, page s = QueryResult.pageUnavailable) :
    probe page sels lim cnt = [] := by
  induction sels with
  | nil => rfl
  | cons s rest ih =>
    rw [probe_cons, ih]
    simp [probeSelector, runSelectorBody, h s]

/-- Claim C1 witness: the amended theorem applied to a concrete closed
page and selector list. -/
theorem C1_witness : probe closedPage ["h1"] 150 2 = [] :=
  C1_page_unavailable_absorbed closedPage ["h1"] 150 2 (fun _ => rfl)

/-- Claim C2, counterexample.  On a page where the selector `h1` matches
two elements, the first of which fails its text read while the second has
text `B`, the probe reports count 2 but an empty preview list: the failed
read aborts the whole preview loop, so the second element's preview `B` is
lost, contradicting the claim that only the failing element is omitted. -/
theorem C2_counterexample :
    probe pageC2 ["h1"] 150 2 = [⟨"h1", 2, []⟩] ∧
    probe pageC2 ["h1"] 150 2 ≠ [⟨"h1", 2, [['B']]⟩] := by
  refine ⟨rfl, by decide⟩

/-- Claim C2 (amended): when the text read of a matched element inside the
preview window fails, the exception aborts preview collection for that
selector: the failing element and every later element of the preview
window are omitted, while previews already produced for earlier elements
and the reported match count are unaffected. -/
theorem C2_read_failure_aborts_previews (page : Page) (sel : String)
    (elems pre post : List Element) (f : Element) (lim cnt : Nat)
    (hq : page sel = QueryResult.ok elems) (hne : elems ≠ [])
    (hsplit : elems.take cnt = pre ++ f :: post) (hf : f.inner_text = none) :
    probe page [sel] lim cnt = [⟨sel, elems.length, (collectPreviews lim pre).1⟩] := by
  rw [probe_singleton, probeSelector, runSelectorBody, hq]
  simp only [if_neg hne, hsplit, collectPreviews_append_fail lim pre post f hf]

/-- Claim C2 witness: the amended theorem applied to the concrete page
where the first matched element's read fails. -/
theorem C2_witness :
    probe pageC2 ["h1"] 150 2 = [⟨"h1", 2, (collectPreviews 150 ([] : List Element)).1⟩] :=
  C2_read_failure_aborts_previews pageC2 "h1" [elBad, elOk ['B']] [] [elOk ['B']] elBad
    150 2 (by decide) (by decide) (by decide) rfl

/-- Claim C3, counterexample.  For the 151-character text consisting of a
space followed by 150 letters, the probe emits a preview of 149 letters:
the source truncates to 150 characters first and only then strips, so the
leading space consumes one character of the budget.  Under the claimed
order (replace newlines, trim, then truncate) the preview would be 150
letters.  The two disagree, refuting the claimed order. -/
theorem C3_counterexample :
    probe (singlePage cx3) ["h1"] 150 2 = [⟨"h1", 1, [List.replicate 149 'a']⟩] ∧
    specOrderNormalize 150 cx3 = List.replicate 150 'a' ∧
    probe (singlePage cx3) ["h1"] 150 2 ≠ [⟨"h1", 1, [specOrderNormalize 150 cx3]⟩] := by
  refine ⟨by decide, by decide, by decide⟩

/-- Claim C3 (amended): for every matched element, its preview string is
its visible text normalized by applying, in this order: (a) truncating to
preview_limit characters, (b) replacing newline characters with spaces,
(c) trimming leading and trailing whitespace. -/
theorem C3_normalization_order (t : List Char) (lim cnt : Nat) (hc : 1 ≤ cnt)
    (h : pyStrip (pyReplaceNL (t.take lim)) ≠ []) :
    probe (singlePage t) ["h1"] lim cnt =
      [⟨"h1", 1, [pyStrip (pyReplaceNL (t.take lim))]⟩] :=
  probe_singlePage_eq t lim cnt hc h

/-- Claim C3 witness: the amended theorem applied to a concrete two
character text. -/
theorem C3_witness :
    probe (singlePage ['O', 'k']) ["h1"] 150 2 =
      [⟨"h1", 1, [pyStrip (pyReplaceNL ((['O', 'k'] : List Char).take 150))]⟩] :=
  C3_normalization_order ['O', 'k'] 150 2 (by decide) (by decide)

/-- Claim C4, counterexample.  The 300-character text of 149 letters, one
space at position 150, then 150 letters is previewed with preview_limit
150 as 149 letters: the source truncates before stripping, so the
trailing space of the truncated segment is removed and the preview has
length 149, not exactly 150. -/
theorem C4_counterexample :
    cx4.length = 300 ∧
    probe (singlePage cx4) ["h1"] 150 2 = [⟨"h1", 1, [List.replicate 149 'a']⟩] ∧
    (List.replicate 149 'a').length ≠ 150 := by
  refine ⟨by decide, by decide, by decide⟩

/-- Claim C4 (amended): for a matched element with 300-character visible
text and preview_limit 150, every emitted preview has length at most 150;
when moreover neither the 1st nor the 150th character of the text is
whitespace, the preview is exactly the first 150 characters with newlines
replaced by spaces, and its length is exactly 150. -/
theorem C4_truncation_bound (t : List Char) (c1 c2 : Char) (h300 : t.length = 300)
    (h1 : (t.take 150).head? = some c1) (h2 : (t.take 150).getLast? = some c2)
    (hw1 : isPyWs c1 = false) (hw2 : isPyWs c2 = false) :
    (∀ u : List Char, ∀ r ∈ probe (singlePage u) ["h1"] 150 2,
      ∀ p ∈ r.previews, p.length ≤ 150) ∧
    probe (singlePage t) ["h1"] 150 2 = [⟨"h1", 1, [pyReplaceNL (t.take 150)]⟩] ∧
    (pyReplaceNL (t.take 150)).length = 150 := by
  have hnl : ∀ c : Char, isPyWs c = false → c ≠ '\n' := by
    intro c hcw hcn
    rw [hcn] at hcw
    exact absurd hcw (by decide)
  have hmap : ∀ c : Char, isPyWs c = false →
      (if c = '\n' then ' ' else c) = c := by
    intro c hcw
    rw [if_neg (hnl c hcw)]
  have hh : (pyReplaceNL (t.take 150)).head? = some c1 := by
    rw [pyReplaceNL, List.head?_map, h1]
    simp [hmap c1 hw1]
  have hl : (pyReplaceNL (t.take 150)).getLast? = some c2 := by
    rw [pyReplaceNL, List.getLast?_map, h2]
    simp [hmap c2 hw2]
  have hid : pyStrip (pyReplaceNL (t.take 150)) = pyReplaceNL (t.take 150) :=
    pyStrip_eq_self _ c1 c2 hh hl hw1 hw2
  have hlen : (pyReplaceNL (t.take 150)).length = 150 := by
    rw [pyReplaceNL, List.length_map, List.length_take, h300]
    omega
  have hnem : pyStrip (pyReplaceNL (t.take 150)) ≠ [] := by
    rw [hid]
    intro hcon
    rw [hcon] at hlen
    simp at hlen
  refine ⟨?_, ?_, hlen⟩
  · intro u r hr p hp
    obtain ⟨elems, _, _, _, hprev, _⟩ := mem_probe _ _ _ _ r hr
    rw [hprev] at hp
    exact (collectPreviews_mem 150 _ p hp).1
  · rw [probe_singlePage_eq t 150 2 (by omega) hnem, hid]

/-- Claim C4 witness: the amended theorem applied to the 300-letter text
with no whitespace, where the preview length is exactly 150. -/
theorem C4_witness :
    (∀ u : List Char, ∀ r ∈ probe (singlePage u) ["h1"] 150 2,
      ∀ p ∈ r.previews, p.length ≤ 150) ∧
    probe (singlePage (List.replicate 300 'a')) ["h1"] 150 2 =
      [⟨"h1", 1, [pyReplaceNL ((List.replicate 300 'a' : List Char).take 150)]⟩] ∧
    (pyReplaceNL ((List.replicate 300 'a' : List Char).take 150)).length = 150 :=
  C4_truncation_bound (List.replicate 300 'a') 'a' 'a' (by decide) (by decide)
    (by decide) (by decide) (by decide)

/-- Claim C5: a selector whose query fails to evaluate (malformed
selector or engine rejection) does not raise out of the probe: it
contributes no ProbeResult, and the remaining selectors before and after
it are processed exactly as they would be without it. -/
theorem C5_malformed_selector_skipped (page : Page) (pre post : List String)
    (bad : String) (lim cnt : Nat) (h : page bad = QueryResult.selectorErr) :
    probe page (pre ++ bad :: post) lim cnt =
      probe page pre lim cnt ++ probe page post lim cnt := by
  rw [probe_append, probe_cons]
  simp [probeSelector, runSelectorBody, h]

/-- Claim C5 witness: on a page where the selector `div[` is rejected by
the engine, probing the list with `div[` in the middle yields exactly the
concatenation of probing the surrounding selectors. -/
theorem C5_witness :
    probe pageC5 (["h1"] ++ "div[" :: ["h1"]) 150 2 =
      probe pageC5 ["h1"] 150 2 ++ probe pageC5 ["h1"] 150 2 :=
  C5_malformed_selector_skipped pageC5 ["h1"] ["h1"] "div[" 150 2 (by decide)

/-- Claim C6: every preview string the probe emits has length at most
preview_limit and contains no newline character. -/
theorem C6_preview_no_newline_bounded (page : Page) (sels : List String)
    (lim cnt : Nat) :
    ∀ r ∈ probe page sels lim cnt, ∀ p ∈ r.previews,
      p.length ≤ lim ∧ '\n' ∉ p := by
  intro r hr p hp
  obtain ⟨elems, _, _, _, hprev, _⟩ := mem_probe page sels lim cnt r hr
  rw [hprev] at hp
  have h := collectPreviews_mem lim (elems.take cnt) p hp
  exact ⟨h.1, h.2.1⟩

/-- Claim C6 witness: the theorem applied to a concrete page emitting one
preview. -/
theorem C6_witness :
    (['O', 'k'] : List Char).length ≤ 150 ∧ '\n' ∉ (['O', 'k'] : List Char) :=
  C6_preview_no_newline_bounded (singlePage ['O', 'k']) ["h1"] 150 2
    ⟨"h1", 1, [['O', 'k']]⟩ (by decide) ['O', 'k'] (by decide)

/-- Claim C7: for every input selector list (the empty list included),
the sequence of selectors in the probe's output equals the input list
filtered to exactly those selectors whose query succeeds with at least one
match; selectors with zero matches or a failed evaluation emit nothing. -/
theorem C7_output_order (page : Page) (sels : List String) (lim cnt : Nat) :
    (probe page sels lim cnt).map ProbeResult.selector = sels.filter (matched page) := by
  induction sels with
  | nil => rfl
  | cons s rest ih =>
    rw [probe_cons, List.map_append, ih, List.filter_cons]
    cases hq : page s with
    | pageUnavailable => simp [probeSelector, runSelectorBody, matched, hq]
    | selectorErr => simp [probeSelector, runSelectorBody, matched, hq]
    | ok elems =>
      by_cases hne : elems = []
      · simp [probeSelector, runSelectorBody, matched, hq, hne]
      · simp [probeSelector, runSelectorBody, matched, hq, hne]

/-- Claim C8: every emitted ProbeResult has at most preview_count
previews, no more previews than its match count, a match count of at
least one that equals the raw number of matched elements, and no empty
preview (elements whose normalized text is empty are omitted); its
previews are collected from the first preview_count matched elements in
document order. -/
theorem C8_preview_count_bounds (page : Page) (sels : List String) (lim cnt : Nat) :
    ∀ r ∈ probe page sels lim cnt,
      r.previews.length ≤ cnt ∧ r.previews.length ≤ r.count ∧ 1 ≤ r.count ∧
      [] ∉ r.previews ∧
      ∃ elems, page r.selector = QueryResult.ok elems ∧ r.count = elems.length ∧
        r.previews = (collectPreviews lim (elems.take cnt)).1 := by
  intro r hr
  obtain ⟨elems, hq, hne, hcount, hprev, _⟩ := mem_probe page sels lim cnt r hr
  refine ⟨?_, ?_, ?_, ?_, elems, hq, hcount, hprev⟩
  · rw [hprev]
    exact le_trans (collectPreviews_length_le _ _) (elems.length_take_le cnt)
  · rw [hprev, hcount]
    refine le_trans (collectPreviews_length_le _ _) ?_
    rw [List.length_take]
    exact min_le_right _ _
  · rw [hcount]
    cases elems with
    | nil => exact absurd rfl hne
    | cons e es => simp
  · intro hmem
    rw [hprev] at hmem
    exact (collectPreviews_mem lim _ _ hmem).2.2 rfl

/-- Claim C8 witness: the theorem applied to a concrete page with one
matched element and one preview. -/
theorem C8_witness :
    (ProbeResult.mk "h1" 1 [['O', 'k']]).previews.length ≤ 2 ∧
    (ProbeResult.mk "h1" 1 [['O', 'k']]).previews.length ≤
      (ProbeResult.mk "h1" 1 [['O', 'k']]).count ∧
    1 ≤ (ProbeResult.mk "h1" 1 [['O', 'k']]).count ∧
    [] ∉ (ProbeResult.mk "h1" 1 [['O', 'k']]).previews ∧
    ∃ elems, singlePage ['O', 'k'] (ProbeResult.mk "h1" 1 [['O', 'k']]).selector =
        QueryResult.ok elems ∧
      (ProbeResult.mk "h1" 1 [['O', 'k']]).count = elems.length ∧
      (ProbeResult.mk "h1" 1 [['O', 'k']]).previews = (collectPreviews 150 (elems.take 2)).1 :=
  C8_preview_count_bounds (singlePage ['O', 'k']) ["h1"] 150 2
    (ProbeResult.mk "h1" 1 [['O', 'k']]) (by decide)

/-- Claim C9: probing is a deterministic pure read of the snapshot: two
runs against pages whose snapshots answer every query identically produce
identical output sequences. -/
theorem C9_deterministic (page1 page2 : Page) (sels : List String) (lim cnt : Nat)
    (h : ∀ s, page1 s = page2 s) :
    probe page1 sels lim cnt = probe page2 sels lim cnt := by
  have hp : page1 = page2 := funext h
  rw [hp]

/-- Claim C9 witness: two runs on the same concrete snapshot agree. -/
theorem C9_witness :
    probe (singlePage ['A']) ["h1"] 150 2 = probe (singlePage ['A']) ["h1"] 150 2 :=
  C9_deterministic (singlePage ['A']) (singlePage ['A']) ["h1"] 150 2 (fun _ => rfl)

/-- Claim C10: when a selector matches at least one element and every one
of the first preview_count matched elements reads back text that is empty
or whitespace-only after normalization, the probe still emits the
ProbeResult with the full raw match count but an empty preview list. -/
theorem C10_empty_previews (page : Page) (sel : String) (elems : List Element)
    (lim cnt : Nat)
    (hq : page sel = QueryResult.ok elems) (hne : elems ≠ [])
    (hempty : ∀ e ∈ elems.take cnt, ∃ t, e.inner_text = some t ∧
        pyStrip (pyReplaceNL (t.take lim)) = []) :
    probe page [sel] lim cnt = [⟨sel, elems.length, []⟩] ∧ 1 ≤ elems.length := by
  constructor
  · rw [probe_singleton, probeSelector, runSelectorBody, hq]
    simp only [if_neg hne, collectPreviews_all_empty lim _ hempty]
  · cases elems with
    | nil => exact absurd rfl hne
    | cons e es => simp

/-- Claim C10 witness: a page whose one matched element has a single
space as text is reported with count 1 and zero previews. -/
theorem C10_witness :
    probe pageC10 ["h1"] 150 2 = [⟨"h1", 1, []⟩] ∧
    1 ≤ ([elOk [' ']] : List Element).length :=
  C10_empty_previews pageC10 "h1" [elOk [' ']] 150 2 (by decide) (by decide)
    (fun e he => by
      simp only [List.take_succ_cons, List.take_nil, List.mem_singleton] at he
      subst he
      exact ⟨[' '], rfl, by decide⟩)

end SelectorProbe
